import Mathlib

/-!
Verification of the prewrite-extension page-scanning and session-correlation
core.  Each definition below is a shallow embedding of a function of the
repository (TypeScript); DOM and storage access are made explicit as
parameters or state.  JavaScript 32-bit integer arithmetic is modelled with
`Int` and explicit wrapping, JS strings with `String` (UTF-16 code units
taken as characters, which agrees on the basic multilingual plane; the JS
string methods used by the code are modelled as executable functions on the
character list, with `toLowerCase` restricted to its ASCII action), and JS
number scores with `ℚ` (the score arithmetic of the job-list detector stays
exact in the claims' range).
-/

set_option maxRecDepth 100000

namespace Prewrite

/-! ## JS string primitives -/

/-- JS `String.prototype.toLowerCase`, ASCII action. -/
def jsLowerChar (c : Char) : Char :=
  if 'A' ≤ c ∧ c ≤ 'Z' then Char.ofNat (c.toNat + 32) else c

/-- Lower-case a string, as JS `toLowerCase` on ASCII text. -/
def jsToLower (s : String) : String :=
  String.mk (s.toList.map jsLowerChar)

/-- Whitespace for JS `trim` (space, tab, newline, carriage return). -/
def jsIsWs (c : Char) : Bool :=
  c = ' ' ∨ c = '\t' ∨ c = '\n' ∨ c = '\r'

/-- JS `String.prototype.trim`. -/
def jsTrim (s : String) : String :=
  String.mk (((s.toList.dropWhile jsIsWs).reverse.dropWhile jsIsWs).reverse)

/-- JS `String.prototype.split` with a single-character separator:
`"a.b".split('.') = ["a","b"]`, `"".split('.') = [""]`. -/
def jsSplit (sep : Char) (s : String) : List String :=
  (s.toList.foldr
    (fun c acc =>
      match acc with
      | [] => [[c]]
      | p :: ps => if c = sep then [] :: p :: ps else (c :: p) :: ps)
    ([[]] : List (List Char))).map String.mk

/-- Substring occurrence test on character lists. -/
def includesAux (pat : List Char) : List Char → Bool
  | [] => pat.isEmpty
  | c :: rest => pat.isPrefixOf (c :: rest) || includesAux pat rest

/-- JS `String.prototype.includes` (substring test), via the char list. -/
def jsIncludes (s pat : String) : Bool :=
  includesAux pat.toList s.toList

/-! ## JS 32-bit arithmetic and base-36 rendering -/

/-- Wrap an integer to a JavaScript 32-bit signed integer, as the JS
`| 0` and `<<` operators do. -/
def jsToInt32 (n : Int) : Int :=
  ((n + 2 ^ 31) % 2 ^ 32) - 2 ^ 31

/-- Digit character for base-36 rendering, as JS
`Number.prototype.toString(36)`: `0`-`9` then `a`-`z`. -/
def base36Digit (n : Nat) : Char :=
  if n < 10 then Char.ofNat (48 + n) else Char.ofNat (87 + n)

/-- Accumulator loop of base-36 rendering.  The first argument is fuel
(structural recursion); one unit is spent per digit. -/
def toBase36Go : Nat → Nat → List Char → List Char
  | 0, _, acc => acc
  | fuel + 1, n, acc =>
    if n = 0 then acc else toBase36Go fuel (n / 36) (base36Digit (n % 36) :: acc)

/-- JS `Math.abs(n).toString(36)` for a natural number.  Every value this
development feeds in is the absolute value of a 32-bit signed integer, hence
at most `2^31 < 36^6`; eight digits of fuel are therefore exact on the whole
domain of use. -/
def toBase36 (n : Nat) : String :=
  if n = 0 then "0" else String.mk (toBase36Go 8 n [])

/-! ## Session identity (src/documetation/autofill.md, session manager) -/

/-- One step of the rolling hash of `generateSessionId`
(`hash = ((hash << 5) - hash) + char; hash |= 0`). -/
def hashStep (h : Int) (c : Char) : Int :=
  jsToInt32 (jsToInt32 (h * 32) - h + c.toNat)

/-- `generateSessionId(domain, company, jobTitle, jobIdentifier)` from the
session manager (src/documetation/autofill.md lines 202-223): join the
lower-cased (and, for company/title, trimmed) inputs with `|`, hash with the
32-bit rolling hash, and render `sess_` plus the absolute value in base 36.
`null` arguments are modelled as `none`; JS `company || ''` collapses both
`null` and the empty string to `''`, which `Option.getD ""` matches. -/
def generateSessionId (domain : String) (company jobTitle : Option String)
    (jobIdentifier : String) : String :=
  let raw := String.intercalate "|"
    [jsToLower domain, jsTrim (jsToLower (company.getD "")),
     jsTrim (jsToLower (jobTitle.getD "")), jsToLower jobIdentifier]
  let h := raw.toList.foldl hashStep 0
  "sess_" ++ toBase36 h.natAbs

/-! ## Root-domain matching (src/documetation/autofill.md lines 253-272) -/

/-- `parts.slice(-n)` on a JS array: the last `n` elements (all of them when
the array is shorter). -/
def takeLast (n : Nat) (l : List String) : List String :=
  l.drop (l.length - n)

/-- The fixed two-part public-suffix list of `getRootDomain`. -/
def twoPartTlds : List String :=
  ["co.uk", "com.au", "co.in", "co.jp", "com.br", "co.za", "co.nz"]

/-- `getRootDomain(hostname)`: lower-case, split on `.`, and keep the last
two labels — or the last three when the last two form a two-part public
suffix and at least three labels exist. -/
def getRootDomain (hostname : String) : String :=
  let parts := jsSplit '.' (jsToLower hostname)
  let lastTwo := String.intercalate "." (takeLast 2 parts)
  if twoPartTlds.contains lastTwo ∧ 3 ≤ parts.length then
    String.intercalate "." (takeLast 3 parts)
  else
    String.intercalate "." (takeLast 2 parts)

/-- `doDomainsMatch(domain1, domain2)`. -/
def doDomainsMatch (domain1 domain2 : String) : Bool :=
  getRootDomain domain1 == getRootDomain domain2

/-- Root domain as the claim words it: the last two labels of the hostname,
except that the last three labels are taken when the last two form one of
the fixed two-part public suffixes (no explicit length guard; "the last
three labels" of a two-label hostname is the whole hostname, as JS
`slice(-3)` behaves). -/
def claimRootDomain (hostname : String) : String :=
  let parts := jsSplit '.' (jsToLower hostname)
  if twoPartTlds.contains (String.intercalate "." (takeLast 2 parts)) then
    String.intercalate "." (takeLast 3 parts)
  else
    String.intercalate "." (takeLast 2 parts)

/-! ## SPA dispatch (src/documetation/autofill.md lines 276-328) -/

/-- `SpaDispatchData`. -/
structure SpaDispatchData where
  domain : String
  sessionId : String
  timestamp : Nat
  deriving Repr, DecidableEq

/-- `SPA_DISPATCH_WINDOW_MS = 30_000`. -/
def SPA_DISPATCH_WINDOW_MS : Nat := 30000

/-- `saveSpaDispatch(domain, sessionId)` at time `now`: overwrite the single
dispatch slot. -/
def saveSpaDispatch (domain sessionId : String) (now : Nat) :
    Option SpaDispatchData :=
  some ⟨domain, sessionId, now⟩

/-- `getSpaDispatch(domain)` with the storage slot and clock made explicit:
returns the retrieved record (or `none`) together with the slot state after
the call.  A missing record returns `none`; an elapsed time above the window
or a root-domain mismatch clears the slot and returns `none`. -/
def getSpaDispatch (slot : Option SpaDispatchData) (domain : String)
    (now : Nat) : Option SpaDispatchData × Option SpaDispatchData :=
  match slot with
  | none => (none, none)
  | some data =>
    let elapsed := now - data.timestamp
    if SPA_DISPATCH_WINDOW_MS < elapsed ∨ ¬ doDomainsMatch data.domain domain then
      (none, none)
    else
      (some data, some data)

/-! ## Job-list page detection (src/lib/scanner/jobListDetector.ts) -/

/-- The page signals consumed by `detectJobListPage`, one per helper of the
source file: `countApplyElements()`, `countJobLinks()`,
`countRepeatedJobCards()`, `hasPaginationOrResultCount()`,
`hasSearchOrFilter()`, and the two components of
`countJobDetailKeywords()`. -/
structure JobListSignals where
  applyCount : Nat
  jobLinkCount : Nat
  repeatedCardCount : Nat
  pagination : Bool
  searchOrFilter : Bool
  detailKeywordUniqueCount : Nat
  detailKeywordMaxRepetitions : Nat
  deriving Repr, DecidableEq

/-- `JobListDetection` (jobListDetector.ts lines 7-11); the JS number score
is modelled as an exact rational. -/
structure JobListDetection where
  is_job_list_page : Bool
  confidence : ℚ
  estimated_job_count : Nat
  deriving Repr, DecidableEq

/-- `detectJobListPage()` (jobListDetector.ts lines 70-133) with the page
signals abstracted as inputs: weighted additive score, the detail-keyword
counter-signal, clamping to `[0,1]`, and the `≥ 0.4` listing threshold. -/
def detectJobListPage (sig : JobListSignals) : JobListDetection :=
  let score0 : ℚ := 0
  let est0 : Nat := 0
  let score1 := if 3 ≤ sig.applyCount then score0 + 3/10 else score0
  let est1 := if 3 ≤ sig.applyCount then max est0 sig.applyCount else est0
  let score2 := if 3 ≤ sig.jobLinkCount then score1 + 3/10 else score1
  let est2 := if 3 ≤ sig.jobLinkCount then max est1 sig.jobLinkCount else est1
  let score3 := if 3 ≤ sig.repeatedCardCount then score2 + 2/10 else score2
  let est3 := if 3 ≤ sig.repeatedCardCount then max est2 sig.repeatedCardCount else est2
  let score4 := if sig.pagination then score3 + 1/10 else score3
  let score5 := if sig.searchOrFilter then score4 + 1/10 else score4
  let score6 :=
    if 3 ≤ sig.detailKeywordMaxRepetitions then score5 + 35/100
    else if 3 ≤ sig.detailKeywordUniqueCount then score5 - 4/10
    else if 2 ≤ sig.detailKeywordUniqueCount then score5 - 3/10
    else if 1 ≤ sig.detailKeywordUniqueCount then score5 - 15/100
    else score5
  let confidence := max 0 (min score6 1)
  { is_job_list_page := decide ((4 : ℚ)/10 ≤ confidence)
    confidence := confidence
    estimated_job_count := est3 }

/-! ## Button classification (src/lib/scanner/buttonDetector.ts)

The tier regexes of the source are literal words, optionally separated by
`\s*` and with small alternations.  A pattern is embedded as a list of
alternatives, each alternative a sequence of literal parts with `\s*`
(any run of whitespace, possibly empty) between consecutive parts.  Since
every part begins with a non-whitespace character, greedily skipping all
whitespace between parts is equivalent to the regex semantics. -/

/-- Match a `\s*`-separated sequence of literal parts at the head of `s`. -/
def seqMatchAt : List (List Char) → List Char → Bool
  | [], _ => true
  | p :: rest, s =>
    p.isPrefixOf s && seqMatchAt rest ((s.drop p.length).dropWhile jsIsWs)

/-- Match a `\s*`-separated sequence of literal parts anywhere in `s`. -/
def seqMatch (ps : List (List Char)) : List Char → Bool
  | [] => seqMatchAt ps []
  | c :: rest => seqMatchAt ps (c :: rest) || seqMatch ps rest

/-- A pattern: alternatives of `\s*`-separated literal part sequences. -/
def testPattern (alts : List (List String)) (s : String) : Bool :=
  alts.any fun seq => seqMatch (seq.map String.toList) s.toList

/-- `SUBMIT_PATTERNS` (buttonDetector.ts lines 6-13). -/
def SUBMIT_PATTERNS : List (List (List String)) :=
  [[["submit"]], [["save"]], [["send"]], [["finish"]], [["complete"]], [["confirm"]]]

/-- `NAVIGATION_PATTERNS` (buttonDetector.ts lines 15-48); `go\s*to` becomes
`[["go","to"]]`, `see\s*(more|details|all)` the three alternatives, and
`let'?s?\s*go` its four expansions. -/
def NAVIGATION_PATTERNS : List (List (List String)) :=
  [[["next"]], [["continue"]], [["proceed"]], [["apply"]],
   [["go", "to"]], [["move", "on"]], [["advance"]], [["forward"]],
   [["start"]], [["begin"]], [["get", "started"]],
   [["let", "go"], ["let'", "go"], ["lets", "go"], ["let's", "go"]],
   [["open"]], [["view"]], [["explore"]], [["discover"]],
   [["see", "more"], ["see", "details"], ["see", "all"]],
   [["learn", "more"]], [["read", "more"]], [["visit"]], [["go", "now"]],
   [["try", "now"], ["try", "it"]], [["sign", "up"]], [["register"]],
   [["join"]], [["accept"]], [["agree"]], [["enter"]], [["launch"]],
   [["take", "me"]], [["show"]], [["click", "here"]]]

/-- `PREVIOUS_PATTERNS` (buttonDetector.ts lines 50-56). -/
def PREVIOUS_PATTERNS : List (List (List String)) :=
  [[["back"]], [["previous"]], [["prev"]], [["return"]], [["go", "back"]]]

/-- `ButtonType` (types/schema). -/
inductive ButtonType where
  | SUBMIT
  | PREVIOUS
  | NAVIGATION
  deriving Repr, DecidableEq

/-- A clickable element as the button detector reads it: text content,
`value`, `aria-label` (absent = `none`), `title`, and the identity and
styling attributes used for ids and selectors. -/
structure ButtonElement where
  id : String
  textContent : String
  value : String
  ariaLabel : Option String
  title : String
  tagName : String
  className : String
  deriving Repr, DecidableEq

/-- JS `a || b` on strings: the empty string is falsy. -/
def jsOr (a b : String) : String :=
  if a = "" then b else a

/-- `getButtonText(el)` (buttonDetector.ts lines 146-154):
`textContent.trim() || value || aria-label || title || ''`. -/
def getButtonText (el : ButtonElement) : String :=
  jsOr (jsTrim el.textContent) (jsOr el.value (jsOr (el.ariaLabel.getD "") el.title))

/-- The combined lower-cased text `classifyButton` tests:
`` `${text.toLowerCase()} ${ariaLabel.toLowerCase()} ${title.toLowerCase()}` ``. -/
def combinedText (el : ButtonElement) (text : String) : String :=
  jsToLower text ++ " " ++ jsToLower (el.ariaLabel.getD "") ++ " " ++ jsToLower el.title

/-- `classifyButton(el, text)` (buttonDetector.ts lines 159-180): test the
SUBMIT tier first, then PREVIOUS, then NAVIGATION; the first tier with a
matching pattern wins, and `none` is returned when no tier matches. -/
def classifyButton (el : ButtonElement) (text : String) : Option ButtonType :=
  let combined := combinedText el text
  if SUBMIT_PATTERNS.any (fun p => testPattern p combined) then some .SUBMIT
  else if PREVIOUS_PATTERNS.any (fun p => testPattern p combined) then some .PREVIOUS
  else if NAVIGATION_PATTERNS.any (fun p => testPattern p combined) then some .NAVIGATION
  else none

/-- `generateSelector(el)` (buttonDetector.ts lines 185-196). -/
def generateSelector (el : ButtonElement) : String :=
  if el.id ≠ "" then "#" ++ el.id
  else
    let classes :=
      String.join (((jsSplit ' ' el.className).filter (· ≠ "")).map ("." ++ ·))
    if classes ≠ "" then jsToLower el.tagName ++ classes
    else jsToLower el.tagName

/-- `ActionButton` (types/schema) as built by the detector. -/
structure ActionButton where
  button_id : String
  button_type : ButtonType
  button_text : String
  selector : String
  deriving Repr, DecidableEq

/-- The indexed `forEach` body of `detectActionButtons` (buttonDetector.ts
lines 124-138): skip elements with no extractable text and elements no tier
classifies; otherwise emit an `ActionButton` (id falls back to
`btn_<index>`). -/
def detectActionButtonsGo (i : Nat) : List ButtonElement → List ActionButton
  | [] => []
  | el :: rest =>
    let text := getButtonText el
    let next := detectActionButtonsGo (i + 1) rest
    if text = "" then next
    else
      match classifyButton el text with
      | none => next
      | some ty =>
        ⟨jsOr el.id ("btn_" ++ toString i), ty, text, generateSelector el⟩ :: next

/-- `detectActionButtons(root)` over the queried candidate elements in
document order. -/
def detectActionButtons (els : List ButtonElement) : List ActionButton :=
  detectActionButtonsGo 0 els

/-! ## Multi-page form detection (src/unnamed/part_012 lines 136-159)

`scanPage` (src/lib/scanner/index.ts line 25) destructures
`{ isMultiPage, estimatedStep }`, i.e. the object-returning
`detectMultiPageForm`.  Its three page observations — the classified
buttons, the number of elements matching the step-indicator selectors
(`[class*="step"], [class*="progress"], [data-step], [aria-current="step"]`),
and the body text — are abstracted as inputs. -/

/-- Numeric value of a digit run, as JS `parseInt(digits, 10)`. -/
def digitsToNat (ds : List Char) : Nat :=
  ds.foldl (fun n c => n * 10 + (c.toNat - 48)) 0

/-- Match `/step\s*(\d+)\s*(of|\/)\s*\d+/` at the head of the (lower-cased)
character list; returns the first capture group.  The alternation `of`/`/`
starts with distinct characters and `\s*` is always followed by a
non-whitespace literal, so greedy scanning is equivalent to the regex. -/
def matchStepAt (l : List Char) : Option Nat :=
  if "step".toList.isPrefixOf l then
    let l1 := (l.drop 4).dropWhile jsIsWs
    let d1 := l1.takeWhile Char.isDigit
    if d1 = [] then none
    else
      let l2 := (l1.drop d1.length).dropWhile jsIsWs
      let afterSep : Option (List Char) :=
        if "of".toList.isPrefixOf l2 then some (l2.drop 2)
        else if "/".toList.isPrefixOf l2 then some (l2.drop 1)
        else none
      match afterSep with
      | none => none
      | some tail =>
        if (tail.dropWhile jsIsWs).takeWhile Char.isDigit = [] then none
        else some (digitsToNat d1)
  else none

/-- First match of the step regex anywhere in the list. -/
def findStepMatch : List Char → Option Nat
  | [] => none
  | c :: rest =>
    match matchStepAt (c :: rest) with
    | some n => some n
    | none => findStepMatch rest

/-- `textContent?.match(/step\s*(\d+)\s*(of|\/)\s*\d+/i)` with the first
capture parsed: the `/i` flag is modelled by lower-casing the text. -/
def stepFromText (text : String) : Option Nat :=
  findStepMatch (jsToLower text).toList

/-- `detectMultiPageForm(root)` (src/unnamed/part_012 lines 136-159):
`hasNext` is a SUBMIT-classified button, `hasPrevious` a PREVIOUS one;
multi-page iff `hasNext && hasPrevious`, or some step-indicator element
exists, or `hasPrevious`; the estimated step comes from the first
`step X of Y` text match, defaulting to 1. -/
def detectMultiPageForm (buttons : List ButtonType) (stepIndicatorCount : Nat)
    (bodyText : String) : Bool × Nat :=
  let hasNext := buttons.any (· == ButtonType.SUBMIT)
  let hasPrevious := buttons.any (· == ButtonType.PREVIOUS)
  let estimatedStep := (stepFromText bodyText).getD 1
  ((hasNext && hasPrevious) || decide (0 < stepIndicatorCount) || hasPrevious,
   estimatedStep)

/-! ## Label resolution (src/lib/scanner/findLabel.ts)

The DOM lookups of the strategy chain (referenced elements, wrapping label,
sibling and container scans) are abstracted as the per-element inputs they
produce; the string processing of every strategy and all fallbacks is
embedded in full. -/

/-- JS `String.prototype.toUpperCase`, ASCII action. -/
def jsUpperChar (c : Char) : Char :=
  if 'a' ≤ c ∧ c ≤ 'z' then Char.ofNat (c.toNat - 32) else c

/-- Collapse whitespace runs into single spaces
(`replace(/\s+/g, ' ')`); the flag records whether the previous character
was whitespace. -/
def collapseWsGo : Bool → List Char → List Char
  | _, [] => []
  | prevWs, c :: r =>
    if jsIsWs c then
      if prevWs then collapseWsGo true r else ' ' :: collapseWsGo true r
    else c :: collapseWsGo false r

/-- Trim whitespace from both ends of a character list. -/
def trimChars (l : List Char) : List Char :=
  ((l.dropWhile jsIsWs).reverse.dropWhile jsIsWs).reverse

/-- `cleanLabelText(text)` (findLabel.ts lines 229-235): drop `*`
characters, strip one trailing colon together with the whitespace around
it, collapse whitespace runs, and trim. -/
def cleanLabelText (s : String) : String :=
  let noStars := s.toList.filter (· ≠ '*')
  let noColon :=
    match noStars.reverse.dropWhile jsIsWs with
    | ':' :: rest => (rest.dropWhile jsIsWs).reverse
    | _ => noStars
  String.mk (trimChars (collapseWsGo false noColon))

/-- The label vocabulary of `isLabelLike` (findLabel.ts lines 215-221). -/
def labelKeywords : List String :=
  ["name", "email", "phone", "address", "city", "state", "zip", "country",
   "first", "last", "middle", "date", "birth", "resume", "cv", "cover",
   "salary", "linkedin", "website", "portfolio", "company", "title",
   "gender", "veteran", "disability", "authorization", "sponsor",
   "experience", "education", "skills", "message", "comments", "notes"]

/-- `isLabelLike(text)` (findLabel.ts lines 208-224): the lower-cased,
trimmed text ends with a colon or contains a label keyword. -/
def isLabelLike (text : String) : Bool :=
  let normalized := jsTrim (jsToLower text)
  (match normalized.toList.reverse with
   | ':' :: _ => true
   | _ => false) ||
  labelKeywords.any (fun k => jsIncludes normalized k)

/-- `formatNameAsLabel(name)` (findLabel.ts lines 240-250): strip a leading
`data-`/`field-` prefix (case-insensitive), put a space before each
capital, turn `_`/`-` into spaces, collapse and trim whitespace, and
capitalize each space-separated word. -/
def formatNameAsLabel (s : String) : String :=
  let l0 :=
    if "data-".toList.isPrefixOf (s.toList.map jsLowerChar) then s.toList.drop 5
    else if "field-".toList.isPrefixOf (s.toList.map jsLowerChar) then s.toList.drop 6
    else s.toList
  let l1 := l0.flatMap (fun c => if 'A' ≤ c ∧ c ≤ 'Z' then [' ', c] else [c])
  let l2 := l1.map (fun c => if c = '_' ∨ c = '-' then ' ' else c)
  let l3 := trimChars (collapseWsGo false l2)
  String.intercalate " "
    ((jsSplit ' ' (String.mk l3)).map fun w =>
      match w.toList with
      | [] => ""
      | c :: rest => String.mk (jsUpperChar c :: rest.map jsLowerChar))

/-- A form control as `findLabel` reads it.  Fields 2-8 carry what the DOM
lookups of the corresponding strategies produce (`none` = attribute absent
or lookup empty-handed):  `ariaLabelledByTexts` the text content of each
resolved `aria-labelledby` reference, `ariaDescribedByText` /
`forLabelText` / `parentLabelText` the text content found by strategies
3-5 (for the parent label, after removing nested controls), and
`precedingLabelText` / `containerLabelText` the already-filtered results of
`findPrecedingLabelElement` / `findLabelInContainer`. -/
structure LabelElement where
  id : String
  ariaLabel : Option String
  ariaLabelledByTexts : List String
  ariaDescribedByText : Option String
  forLabelText : Option String
  parentLabelText : Option String
  precedingLabelText : Option String
  containerLabelText : Option String
  dataLabel : Option String
  dataName : Option String
  dataFieldName : Option String
  dataTestid : Option String
  title : Option String
  name : Option String
  placeholder : Option String
  deriving Repr, DecidableEq

/-- JS `a || b` over nullable attribute strings: `null` and `""` fall
through. -/
def jsOrAttr (a b : Option String) : Option String :=
  match a with
  | some s => if s = "" then b else some s
  | none => b

/-- Strategies 1-8 of `findLabel` (findLabel.ts lines 7-79), first hit
wins: aria-label, aria-labelledby, aria-describedby, `label[for]`, wrapping
label, preceding siblings, container scan, and data attributes filtered by
`isLabelLike`. -/
def higherStrategies (el : LabelElement) : Option String :=
  [el.ariaLabel.bind (fun a => if jsTrim a = "" then none else some (cleanLabelText a)),
   (let texts := el.ariaLabelledByTexts.filterMap
      (fun t => if jsTrim t = "" then none else some (jsTrim t))
    if texts.isEmpty then none
    else some (cleanLabelText (String.intercalate " " texts))),
   el.ariaDescribedByText.bind
     (fun t => if jsTrim t = "" then none else some (cleanLabelText t)),
   (if el.id = "" then none
    else el.forLabelText.bind
      (fun t => if jsTrim t = "" then none else some (cleanLabelText t))),
   el.parentLabelText.bind
     (fun t => if jsTrim t = "" then none else some (cleanLabelText (jsTrim t))),
   el.precedingLabelText.bind
     (fun s => if s = "" then none else some (cleanLabelText s)),
   el.containerLabelText.bind
     (fun s => if s = "" then none else some (cleanLabelText s)),
   (match jsOrAttr el.dataLabel (jsOrAttr el.dataName
      (jsOrAttr el.dataFieldName el.dataTestid)) with
    | some s => if isLabelLike s then some (formatNameAsLabel s) else none
    | none => none)].findSome? id

/-- Fallback steps 9-10 of `findLabel` (findLabel.ts lines 81-96): the
`title` attribute, then the `name` attribute titleized, then the
`placeholder` attribute. -/
def fallbackChain (el : LabelElement) : Option String :=
  (el.title.bind (fun t => if jsTrim t = "" then none else some (cleanLabelText t))).orElse
    fun _ =>
      (el.name.bind (fun n => if n = "" then none else some (formatNameAsLabel n))).orElse
        fun _ =>
          el.placeholder.bind (fun p => if p = "" then none else some (cleanLabelText p))

/-- `findLabel(element)` (findLabel.ts lines 7-99): the strategy chain,
then the fallbacks, else the empty string. -/
def findLabel (el : LabelElement) : String :=
  ((higherStrategies el).orElse fun _ => fallbackChain el).getD ""

/-- The `LabelElement` with every source empty except the given `name` and
`placeholder` attributes. -/
def bareNamePlaceholder (name placeholder : Option String) : LabelElement :=
  ⟨"", none, [], none, none, none, none, none, none, none, none, none,
   none, name, placeholder⟩

/-! ## Form-field identity (src/lib/scanner/formFieldExtractor.ts)

The claim under test concerns the `field_id` values the extractor emits, so
the embedding models the id-relevant shape of a form control (`tagName`,
input `type`, `id`, `name`) and the id synthesis of
`processFormElement`/`generateFieldId`; label, options and section context
do not influence identity.  The document is the list of
`input`/`select`/`textarea` elements in document order, which is both the
`querySelectorAll('input, select, textarea')` result and (per tag) the
`document.querySelectorAll(element.tagName)` list used for the positional
index. -/

/-- The three form tags the extractor queries. -/
inductive FormTag where
  | input
  | select
  | textarea
  deriving Repr, DecidableEq

/-- `tagName.toLowerCase()` of a form tag. -/
def tagNameStr : FormTag → String
  | .input => "input"
  | .select => "select"
  | .textarea => "textarea"

/-- A form control as the id synthesis reads it (`inputType` is
`HTMLInputElement.type` and only meaningful on inputs). -/
structure FormControl where
  tag : FormTag
  inputType : String
  id : String
  name : Option String
  deriving Repr, DecidableEq

/-- The input types `processFormElement` skips (formFieldExtractor.ts
lines 90-95). -/
def skippedInputTypes : List String :=
  ["hidden", "submit", "button", "reset", "image"]

/-- The `field_id` loop of `extractFormFields`: for each surviving element,
`element.id || generateFieldId(element)` with
`generateFieldId = prewrite-<tag>-<name || index>` where `index` is the
element's position among same-tag elements of the document
(formFieldExtractor.ts lines 97 and 195-200).  `seen` is the already
traversed prefix, used for the same-tag index. -/
def fieldIdsGo (seen : List FormControl) : List FormControl → List String
  | [] => []
  | el :: rest =>
    let ids := fieldIdsGo (seen ++ [el]) rest
    if el.tag = .input ∧ skippedInputTypes.contains (jsToLower el.inputType) then ids
    else
      let fid :=
        if el.id ≠ "" then el.id
        else
          let name := el.name.getD ""
          let idx := (seen.filter (fun e => e.tag == el.tag)).length
          "prewrite-" ++ tagNameStr el.tag ++ "-" ++
            (if name ≠ "" then name else toString idx)
      fid :: ids

/-- The `field_id` values `extractFormFields` emits for a document, in
order. -/
def extractFieldIds (doc : List FormControl) : List String :=
  fieldIdsGo [] doc

/-! ## Job identifier from the URL (src/documetation/autofill.md lines 232-244)

`extractJobIdentifier` relies on the platform `URL` /`URLSearchParams`
API: parse the URL, sort the query pairs by key (a stable sort comparing
keys by code units, per the `URLSearchParams.sort` specification), and
serialize `path + '?' + query + hash`.  The platform behaviour is modelled
for URLs without percent-encoding or dot-segment normalization: an
absolute URL `scheme://host[/path][?query][#fragment]`, query pairs split
on `&` and at the first `=` (empty segments skipped), and pairs
re-serialized as `k=v` joined by `&`.  Key comparison uses the
lexicographic order on the character list, which agrees with the code-unit
order on the basic multilingual plane. -/

/-- Split an absolute URL into its scheme and the remainder after `://`;
`none` when no `://` occurs. -/
def schemeSplit : List Char → Option (List Char × List Char)
  | [] => none
  | c :: rest =>
    if "://".toList.isPrefixOf (c :: rest) then some ([], (c :: rest).drop 3)
    else
      match schemeSplit rest with
      | some (s, r) => some (c :: s, r)
      | none => none

/-- Split a query segment at its first `=`; no `=` yields an empty value,
as `URLSearchParams` does. -/
def splitFirstEq : List Char → List Char × List Char
  | [] => ([], [])
  | c :: r =>
    if c = '=' then ([], r)
    else
      let p := splitFirstEq r
      (c :: p.1, p.2)

/-- Parse a raw query string into its key/value pairs
(`URLSearchParams(q)` on percent-encoding-free input): split on `&`,
skip empty segments, split each segment at the first `=`. -/
def parseQuery (q : String) : List (String × String) :=
  if q = "" then []
  else
    (jsSplit '&' q).filterMap fun seg =>
      if seg = "" then none
      else
        let p := splitFirstEq seg.toList
        some (String.mk p.1, String.mk p.2)

/-- A parsed URL: `pathname` (leading slash, `/` when empty), the query
pairs in order, and `hash` (with its `#`, or empty). -/
structure ParsedUrl where
  path : String
  params : List (String × String)
  frag : String
  deriving Repr, DecidableEq

/-- Characters ending the host part. -/
def isHostEnd (c : Char) : Bool :=
  c = '/' ∨ c = '?' ∨ c = '#'

/-- Characters ending the path part. -/
def isPathEnd (c : Char) : Bool :=
  c = '?' ∨ c = '#'

/-- `new URL(url)` on an absolute URL, restricted as described above;
`none` models the constructor throwing. -/
def parseUrl (url : String) : Option ParsedUrl :=
  match schemeSplit url.toList with
  | none => none
  | some (scheme, rest) =>
    if scheme = [] then none
    else
      let host := rest.takeWhile (fun c => !(isHostEnd c))
      if host = [] then none
      else
        let rest2 := rest.drop host.length
        let pathRaw := rest2.takeWhile (fun c => !(isPathEnd c))
        let after := rest2.drop pathRaw.length
        let qf : List Char × List Char :=
          match after with
          | '?' :: r => (r.takeWhile (· ≠ '#'), r.drop (r.takeWhile (· ≠ '#')).length)
          | _ => ([], after)
        let frag :=
          match qf.2 with
          | '#' :: f => if f = [] then "" else "#" ++ String.mk f
          | _ => ""
        some
          { path := if pathRaw = [] then "/" else String.mk pathRaw
            params := parseQuery (String.mk qf.1)
            frag := frag }

/-- The key order of `URLSearchParams.sort`: keys compared by code units,
values ignored. -/
def paramKeyLe (a b : String × String) : Prop :=
  a.1.toList ≤ b.1.toList

instance : DecidableRel paramKeyLe :=
  fun a b => inferInstanceAs (Decidable (a.1.toList ≤ b.1.toList))

instance : IsTotal (String × String) paramKeyLe :=
  ⟨fun a b => le_total a.1.toList b.1.toList⟩

instance : IsTrans (String × String) paramKeyLe :=
  ⟨fun _ _ _ => le_trans⟩

/-- `searchParams.sort()`: a stable sort by key.  Insertion sort inserting
before the first key-greater-or-equal element, processing right to left, is
stable. -/
def sortParams (ps : List (String × String)) : List (String × String) :=
  List.insertionSort paramKeyLe ps

/-- `searchParams.toString()` on percent-encoding-free pairs: `k=v` joined
with `&`. -/
def joinAmp : List (String × String) → String
  | [] => ""
  | p :: rest =>
    p.1 ++ "=" ++ p.2 ++ (if rest.isEmpty then "" else "&" ++ joinAmp rest)

/-- `urlObj.pathname.replace(/\/$/, '') || '/'`: drop one trailing slash,
defaulting to `/`. -/
def pathClean (p : String) : String :=
  match p.toList.reverse with
  | '/' :: rest => if rest = [] then "/" else String.mk rest.reverse
  | _ => if p = "" then "/" else p

/-- The body of `extractJobIdentifier` after URL parsing:
`${path}${query ? '?' + query : ''}${hash}` with the query sorted. -/
def jobIdentOfParsed (u : ParsedUrl) : String :=
  let query := joinAmp (sortParams u.params)
  pathClean u.path ++ (if query = "" then "" else "?" ++ query) ++ u.frag

/-- `extractJobIdentifier(url)` (src/documetation/autofill.md lines
232-244): parse, sort the query, rebuild; parsing failure returns the raw
input. -/
def extractJobIdentifier (url : String) : String :=
  match parseUrl url with
  | some u => jobIdentOfParsed u
  | none => url

/-! ## Theorems -/

/-- `getRootDomain` computes exactly the root domain the claim describes:
the difference between the two definitions — the explicit `parts.length ≥ 3`
guard — is immaterial, because taking the last three of at most two labels
already yields the whole list. -/
theorem getRootDomain_eq_claim (h : String) :
    getRootDomain h = claimRootDomain h := by
  unfold getRootDomain claimRootDomain
  by_cases hc :
      String.intercalate "." (takeLast 2 (jsSplit '.' (jsToLower h))) ∈ twoPartTlds
  · by_cases hl : 3 ≤ (jsSplit '.' (jsToLower h)).length
    · simp [hc, hl]
    · have h2 : (jsSplit '.' (jsToLower h)).length - 2 = 0 := by omega
      have h3 : (jsSplit '.' (jsToLower h)).length - 3 = 0 := by omega
      simp [hc, hl, takeLast, h2, h3]
  · simp [hc]

/-- C1: the session id is a pure function of the input tuple
`(domain, company, title, jobIdentifier)`: any two calls on equal inputs
return the same id string.  The embedded `generateSessionId` consumes
nothing but the four inputs — no clock, randomness, or shared state — so
independent scans of the same job page resolve to the same session id. -/
theorem generateSessionId_deterministic (d d' : String) (c c' t t' : Option String)
    (j j' : String) (hd : d = d') (hc : c = c') (ht : t = t') (hj : j = j') :
    generateSessionId d c t j = generateSessionId d' c' t' j' := by
  subst hd; subst hc; subst ht; subst hj; rfl

/-- Witness for C1 at a concrete input tuple. -/
theorem generateSessionId_deterministic_witness :
    generateSessionId "jobs.indeed.com" (some "Indeed") (some "Engineer") "/viewjob?jk=123"
      = generateSessionId "jobs.indeed.com" (some "Indeed") (some "Engineer") "/viewjob?jk=123" :=
  generateSessionId_deterministic _ _ _ _ _ _ _ _ rfl rfl rfl rfl

/-- C10: `generateSessionId` is not injective.  The four inputs are joined
with `|` before hashing, so a `|` inside the company name shifts text into
the title component: the distinct tuples
`("a", "b|c", "d", "e")` and `("a", "b", "c|d", "e")` both hash the
pre-image `"a|b|c|d|e"` and collide on the same session id. -/
theorem generateSessionId_collision :
    generateSessionId "a" (some "b|c") (some "d") "e"
      = generateSessionId "a" (some "b") (some "c|d") "e" ∧
    (("a", some "b|c", some "d", "e") :
        String × Option String × Option String × String)
      ≠ ("a", some "b", some "c|d", "e") :=
  ⟨by decide, by decide⟩

/-- C3: root-domain matching compares the last two labels of each hostname,
except that the last three labels are compared when the last two form one of
the fixed two-part public suffixes; and the three concrete matches of the
claim hold: `jobs.indeed.com ~ indeed.com`, `foo.co.uk ≁ bar.co.uk`,
`a.company.co.uk ~ company.co.uk`. -/
theorem doDomainsMatch_root_labels :
    (∀ h1 h2 : String,
      doDomainsMatch h1 h2 = true ↔ claimRootDomain h1 = claimRootDomain h2) ∧
    doDomainsMatch "jobs.indeed.com" "indeed.com" = true ∧
    doDomainsMatch "foo.co.uk" "bar.co.uk" = false ∧
    doDomainsMatch "a.company.co.uk" "company.co.uk" = true := by
  refine ⟨fun h1 h2 => ?_, by decide, by decide, by decide⟩
  simp [doDomainsMatch, getRootDomain_eq_claim]

/-- Witness for C3 at concrete hostnames. -/
theorem doDomainsMatch_root_labels_witness :
    doDomainsMatch "jobs.indeed.com" "indeed.com" = true ∧
    claimRootDomain "jobs.indeed.com" = claimRootDomain "indeed.com" :=
  ⟨doDomainsMatch_root_labels.2.1,
   (doDomainsMatch_root_labels.1 "jobs.indeed.com" "indeed.com").mp
     doDomainsMatch_root_labels.2.1⟩

/-- C4: a dispatch saved at `t₀` is returned (and kept) by a lookup at
`t₀ + 29s` when the root domains match; a lookup at `t₀ + 31s` returns
nothing and clears the slot; a lookup from a hostname whose root domain does
not match returns nothing and clears the slot at any time. -/
theorem getSpaDispatch_window (d : SpaDispatchData) (host : String) (t : Nat) :
    (doDomainsMatch d.domain host = true →
      getSpaDispatch (some d) host (d.timestamp + 29000) = (some d, some d)) ∧
    getSpaDispatch (some d) host (d.timestamp + 31000) = (none, none) ∧
    (doDomainsMatch d.domain host = false →
      getSpaDispatch (some d) host t = (none, none)) := by
  refine ⟨fun hm => ?_, ?_, fun hm => ?_⟩
  · simp [getSpaDispatch, SPA_DISPATCH_WINDOW_MS, hm]
  · simp [getSpaDispatch, SPA_DISPATCH_WINDOW_MS]
  · simp [getSpaDispatch, hm]

/-- Witness for C4: a dispatch saved at `t₀ = 1000` on `jobs.indeed.com` is
retrieved at `t₀+29s` for `indeed.com`, gone (slot cleared) at `t₀+31s`, and
gone for the non-matching hostname `other.org`. -/
theorem getSpaDispatch_window_witness :
    getSpaDispatch (some ⟨"jobs.indeed.com", "sess_1", 1000⟩) "indeed.com" 30000
      = (some ⟨"jobs.indeed.com", "sess_1", 1000⟩,
         some ⟨"jobs.indeed.com", "sess_1", 1000⟩) ∧
    getSpaDispatch (some ⟨"jobs.indeed.com", "sess_1", 1000⟩) "indeed.com" 32000
      = (none, none) ∧
    getSpaDispatch (some ⟨"jobs.indeed.com", "sess_1", 1000⟩) "other.org" 5000
      = (none, none) :=
  ⟨(getSpaDispatch_window ⟨"jobs.indeed.com", "sess_1", 1000⟩ "indeed.com" 0).1
      (by decide),
   (getSpaDispatch_window ⟨"jobs.indeed.com", "sess_1", 1000⟩ "indeed.com" 0).2.1,
   (getSpaDispatch_window ⟨"jobs.indeed.com", "sess_1", 1000⟩ "other.org" 5000).2.2
      (by decide)⟩

/-- C6: for every combination of listing signals the confidence lies in
`[0,1]` and the listing flag holds exactly when the confidence reaches 0.4;
and a page with 5 apply-style elements, 5 job-detail links, a
pagination/result-count indicator and no detail keywords scores at least
0.4 and is classified as a listing. -/
theorem detectJobListPage_score (sig : JobListSignals) :
    0 ≤ (detectJobListPage sig).confidence ∧
    (detectJobListPage sig).confidence ≤ 1 ∧
    ((detectJobListPage sig).is_job_list_page = true ↔
      (4 : ℚ)/10 ≤ (detectJobListPage sig).confidence) ∧
    ((4 : ℚ)/10 ≤ (detectJobListPage ⟨5, 5, 0, true, false, 0, 0⟩).confidence ∧
      (detectJobListPage ⟨5, 5, 0, true, false, 0, 0⟩).is_job_list_page = true) := by
  obtain ⟨s, hs⟩ : ∃ s, (detectJobListPage sig).confidence = max 0 (min s 1) :=
    ⟨_, rfl⟩
  have hflag : (detectJobListPage sig).is_job_list_page
      = decide ((4 : ℚ)/10 ≤ (detectJobListPage sig).confidence) := rfl
  refine ⟨?_, ?_, ?_, by norm_num [detectJobListPage], by norm_num [detectJobListPage]⟩
  · rw [hs]; exact le_max_left _ _
  · rw [hs]; exact max_le (by norm_num) (min_le_right _ _)
  · rw [hflag]; exact decide_eq_true_iff

/-- Witness for C6 at the claim's concrete signal combination. -/
theorem detectJobListPage_score_witness :
    0 ≤ (detectJobListPage ⟨5, 5, 0, true, false, 0, 0⟩).confidence ∧
    (detectJobListPage ⟨5, 5, 0, true, false, 0, 0⟩).confidence ≤ 1 ∧
    (detectJobListPage ⟨5, 5, 0, true, false, 0, 0⟩).is_job_list_page = true :=
  ⟨(detectJobListPage_score ⟨5, 5, 0, true, false, 0, 0⟩).1,
   (detectJobListPage_score ⟨5, 5, 0, true, false, 0, 0⟩).2.1,
   (detectJobListPage_score ⟨5, 5, 0, true, false, 0, 0⟩).2.2.2.2⟩

/-- The detector's output length counts exactly the elements with
extractable text that some tier classifies, independently of the running
index: unmatched or textless elements are dropped. -/
theorem detectActionButtonsGo_length (i : Nat) (els : List ButtonElement) :
    (detectActionButtonsGo i els).length =
    (els.filter fun el =>
      (getButtonText el != "") && (classifyButton el (getButtonText el)).isSome).length := by
  induction els generalizing i with
  | nil => rfl
  | cons el rest ih =>
    simp only [detectActionButtonsGo, List.filter]
    by_cases ht : getButtonText el = ""
    · simp [ht, ih (i + 1)]
    · have ht' : (getButtonText el != "") = true := by simp [bne_iff_ne, ht]
      cases hc : classifyButton el (getButtonText el) with
      | none => simp [ht, ht', hc, ih (i + 1)]
      | some ty => simp [ht, ht', hc, ih (i + 1)]

/-- C5: button classification tests the submit tier first, then previous,
then navigation, first match winning: any element whose combined text
matches a submit pattern classifies as SUBMIT (so never NAVIGATION); a
NAVIGATION result certifies that no submit and no previous pattern matched;
the button "Submit and Continue" classifies SUBMIT; and elements matching
no tier (or with no text) are dropped from the action-button list. -/
theorem classifyButton_tier_priority :
    (∀ (el : ButtonElement) (text : String),
      (SUBMIT_PATTERNS.any fun p => testPattern p (combinedText el text)) = true →
      classifyButton el text = some ButtonType.SUBMIT) ∧
    (∀ (el : ButtonElement) (text : String),
      classifyButton el text = some ButtonType.NAVIGATION →
      (SUBMIT_PATTERNS.any fun p => testPattern p (combinedText el text)) = false ∧
      (PREVIOUS_PATTERNS.any fun p => testPattern p (combinedText el text)) = false) ∧
    classifyButton ⟨"", "Submit and Continue", "", none, "", "BUTTON", ""⟩
      "Submit and Continue" = some ButtonType.SUBMIT ∧
    (∀ els : List ButtonElement,
      (detectActionButtons els).length =
      (els.filter fun el =>
        (getButtonText el != "") &&
          (classifyButton el (getButtonText el)).isSome).length) := by
  refine ⟨fun el text h => by simp [classifyButton, h], fun el text h => ?_,
    by decide, fun els => detectActionButtonsGo_length 0 els⟩
  cases h1 : (SUBMIT_PATTERNS.any fun p => testPattern p (combinedText el text)) with
  | true => simp [classifyButton, h1] at h
  | false =>
    cases h2 : (PREVIOUS_PATTERNS.any fun p => testPattern p (combinedText el text)) with
    | true => simp [classifyButton, h1, h2] at h
    | false => exact ⟨rfl, rfl⟩

/-- Witness for C5: "Submit and Continue" matches the submit tier and the
classifier returns SUBMIT on it. -/
theorem classifyButton_tier_priority_witness :
    classifyButton ⟨"", "Submit and Continue", "", none, "", "BUTTON", ""⟩
      "Submit and Continue" = some ButtonType.SUBMIT ∧
    (SUBMIT_PATTERNS.any fun p =>
      testPattern p (combinedText ⟨"", "Submit and Continue", "", none, "", "BUTTON", ""⟩
        "Submit and Continue")) = true :=
  ⟨classifyButton_tier_priority.1 ⟨"", "Submit and Continue", "", none, "", "BUTTON", ""⟩
      "Submit and Continue" (by decide), by decide⟩

/-- C8 counterexample: a page whose body text contains "Step 2 of 3" (the
step regex matches and yields 2) but with no step-indicator markup elements
and no buttons is NOT reported as multi-page, contradicting the claim that
"step X of Y" text alone makes the detection true. -/
theorem detectMultiPageForm_text_only_counterexample :
    stepFromText "Step 2 of 3" = some 2 ∧
    (detectMultiPageForm [] 0 "Step 2 of 3").1 = false :=
  ⟨by decide, by decide⟩

/-- C8 (amended): multi-page detection is true exactly when both a
previous- and a next-style control exist, or any previous-style control
exists, or step-indicator markup elements are present; "step X of Y" text
only feeds the estimated step number, which is parsed from the first such
textual match and defaults to 1. -/
theorem detectMultiPageForm_spec (buttons : List ButtonType)
    (indicators : Nat) (text : String) :
    ((detectMultiPageForm buttons indicators text).1 = true ↔
      ((ButtonType.SUBMIT ∈ buttons ∧ ButtonType.PREVIOUS ∈ buttons) ∨
        0 < indicators ∨ ButtonType.PREVIOUS ∈ buttons)) ∧
    (detectMultiPageForm buttons indicators text).2 = (stepFromText text).getD 1 := by
  constructor
  · simp only [detectMultiPageForm, Bool.or_eq_true, Bool.and_eq_true,
      List.any_eq_true, beq_iff_eq, decide_eq_true_eq]
    constructor
    · rintro ((⟨⟨a, ha, rfl⟩, b, hb, rfl⟩ | hind) | ⟨b, hb, rfl⟩)
      · exact Or.inl ⟨ha, hb⟩
      · exact Or.inr (Or.inl hind)
      · exact Or.inr (Or.inr hb)
    · rintro (⟨ha, hb⟩ | hind | hb)
      · exact Or.inl (Or.inl ⟨⟨_, ha, rfl⟩, _, hb, rfl⟩)
      · exact Or.inl (Or.inr hind)
      · exact Or.inr ⟨_, hb, rfl⟩
  · rfl

/-- Witness for C8's amended statement: a lone previous button makes the
page multi-page, and text without a step pattern leaves the step at 1. -/
theorem detectMultiPageForm_spec_witness :
    (detectMultiPageForm [ButtonType.PREVIOUS] 0 "no steps here").1 = true ∧
    (detectMultiPageForm [ButtonType.PREVIOUS] 0 "no steps here").2 = 1 :=
  ⟨(detectMultiPageForm_spec [ButtonType.PREVIOUS] 0 "no steps here").1.mpr
      (Or.inr (Or.inr (by decide))),
   ((detectMultiPageForm_spec [ButtonType.PREVIOUS] 0 "no steps here").2).trans
      (by decide)⟩

/-- C7 counterexample: a control with non-empty `placeholder` and non-empty
`name` and no other label source is labelled from the **name** attribute
("First Name"), not from the placeholder ("Your given name"): in
findLabel.ts the name fallback (line 89) precedes the placeholder fallback
(line 93). -/
theorem findLabel_name_beats_placeholder :
    findLabel (bareNamePlaceholder (some "first_name") (some "Your given name"))
      = "First Name" ∧
    cleanLabelText "Your given name" = "Your given name" ∧
    ("First Name" : String) ≠ "Your given name" :=
  ⟨by decide, by decide, by decide⟩

/-- C7 (amended): when strategies 1-8 yield nothing, the fallbacks run in
the order `title` attribute, then the titleized `name` attribute, then the
`placeholder` attribute; in particular a control with a non-empty name and
no title gets the titleized name even when a placeholder is present, and an
input with `name="first_name"` and no other label source is labelled
"First Name". -/
theorem findLabel_fallback_order :
    (∀ el : LabelElement, higherStrategies el = none →
      findLabel el = (fallbackChain el).getD "") ∧
    (∀ (el : LabelElement) (n : String), higherStrategies el = none →
      el.title = none → el.name = some n → n ≠ "" →
      findLabel el = formatNameAsLabel n) ∧
    findLabel (bareNamePlaceholder (some "first_name") none) = "First Name" := by
  refine ⟨fun el h => ?_, fun el n h ht hn hne => ?_, by decide⟩
  · simp [findLabel, h, Option.orElse]
  · simp [findLabel, fallbackChain, h, ht, hn, hne, Option.orElse]

/-- Witness for C7's amended statement: with both a name and a placeholder
and no other source, the label is the titleized name, "First Name". -/
theorem findLabel_fallback_order_witness :
    findLabel (bareNamePlaceholder (some "first_name") (some "Your given name"))
      = formatNameAsLabel "first_name" ∧
    formatNameAsLabel "first_name" = "First Name" :=
  ⟨findLabel_fallback_order.2.1
      (bareNamePlaceholder (some "first_name") (some "Your given name"))
      "first_name" (by decide) rfl rfl (by decide),
   by decide⟩

/-- C9: field-id uniqueness fails.  A document holding two id-less
`<input name="email">` controls makes the extractor synthesize the same
`field_id` (`prewrite-input-email`) for both — `generateFieldId` uses
`name || index`, so the positional index that would disambiguate is dropped
whenever a name is present — contradicting the claimed (and the function's
own documented) uniqueness. -/
theorem extractFieldIds_duplicate :
    extractFieldIds
      [⟨FormTag.input, "text", "", some "email"⟩,
       ⟨FormTag.input, "text", "", some "email"⟩]
      = ["prewrite-input-email", "prewrite-input-email"] ∧
    ¬ (extractFieldIds
        [⟨FormTag.input, "text", "", some "email"⟩,
         ⟨FormTag.input, "text", "", some "email"⟩]).Nodup :=
  ⟨by decide, by decide⟩

/-! ### Helper lemmas for the job-identifier theorems -/

theorem str_append_cancel_left {a b c : String} (h : a ++ b = a ++ c) : b = c := by
  have hd : a.data ++ b.data = a.data ++ c.data := by
    simpa [String.data_append] using congrArg String.data h
  exact String.ext (List.append_cancel_left hd)

theorem str_append_cancel_right {a b c : String} (h : a ++ c = b ++ c) : a = b := by
  have hd : a.data ++ c.data = b.data ++ c.data := by
    simpa [String.data_append] using congrArg String.data h
  exact String.ext (List.append_cancel_right hd)

/-- The strict key order underlying `paramKeyLe`. -/
def paramKeyLt (a b : String × String) : Prop :=
  a.1.toList < b.1.toList

instance : IsAntisymm (String × String) paramKeyLt :=
  ⟨fun _ _ h1 h2 => absurd h2 (lt_asymm h1)⟩

theorem sortParams_cons (a : String × String) (l : List (String × String)) :
    sortParams (a :: l) = List.orderedInsert paramKeyLe a (sortParams l) := rfl

/-- Key-sorted permutations with pairwise-distinct keys coincide: the
sorted order is unique when no two parameters share a name. -/
theorem sortParams_eq_of_perm {ps1 ps2 : List (String × String)}
    (hp : ps1.Perm ps2) (hnd : (ps1.map Prod.fst).Nodup) :
    sortParams ps1 = sortParams ps2 := by
  have hperm : (sortParams ps1).Perm (sortParams ps2) :=
    ((List.perm_insertionSort _ ps1).trans hp).trans
      (List.perm_insertionSort _ ps2).symm
  have hnd1 : ((sortParams ps1).map Prod.fst).Nodup :=
    (((List.perm_insertionSort paramKeyLe ps1).map Prod.fst).nodup_iff).mpr hnd
  have hnd2 : ((sortParams ps2).map Prod.fst).Nodup :=
    (((List.perm_insertionSort paramKeyLe ps2).map Prod.fst).nodup_iff).mpr
      ((hp.map Prod.fst).nodup_iff.mp hnd)
  have hstrict : ∀ l : List (String × String), List.Sorted paramKeyLe l →
      (l.map Prod.fst).Nodup → List.Sorted paramKeyLt l := by
    intro l hs hn
    have hpw : l.Pairwise fun a b => a.1 ≠ b.1 := List.pairwise_map.mp hn
    exact (hs.and hpw).imp fun {a b} h =>
      lt_of_le_of_ne h.1 fun hh => h.2 (String.ext hh)
  exact List.eq_of_perm_of_sorted hperm
    (hstrict _ (List.sorted_insertionSort _ ps1) hnd1)
    (hstrict _ (List.sorted_insertionSort _ ps2) hnd2)

/-- Inserting `(k, v)` places the pair at a position that depends only on
`k` and the keys of the target list, never on `v`. -/
theorem orderedInsert_congr_value (k v1 v2 : String)
    (l : List (String × String)) :
    ∃ A B, List.orderedInsert paramKeyLe (k, v1) l = A ++ (k, v1) :: B ∧
      List.orderedInsert paramKeyLe (k, v2) l = A ++ (k, v2) :: B := by
  induction l with
  | nil => exact ⟨[], [], rfl, rfl⟩
  | cons q rest ih =>
    by_cases hr : paramKeyLe (k, v1) q
    · have hr2 : paramKeyLe (k, v2) q := hr
      exact ⟨[], q :: rest, by simp [List.orderedInsert, hr],
        by simp [List.orderedInsert, hr2]⟩
    · have hr2 : ¬ paramKeyLe (k, v2) q := hr
      obtain ⟨A, B, h1, h2⟩ := ih
      exact ⟨q :: A, B, by simp [List.orderedInsert, hr, h1],
        by simp [List.orderedInsert, hr2, h2]⟩

/-- Inserting any element into two lists that differ only in the value at
one position yields lists that again differ only in that value. -/
theorem orderedInsert_frame (a : String × String) (k v1 v2 : String)
    (C D : List (String × String)) :
    ∃ E F, List.orderedInsert paramKeyLe a (C ++ (k, v1) :: D) = E ++ (k, v1) :: F ∧
      List.orderedInsert paramKeyLe a (C ++ (k, v2) :: D) = E ++ (k, v2) :: F := by
  induction C with
  | nil =>
    by_cases hr : paramKeyLe a (k, v1)
    · have hr2 : paramKeyLe a (k, v2) := hr
      exact ⟨[a], D, by simp [List.orderedInsert, hr],
        by simp [List.orderedInsert, hr2]⟩
    · have hr2 : ¬ paramKeyLe a (k, v2) := hr
      exact ⟨[], List.orderedInsert paramKeyLe a D,
        by simp [List.orderedInsert, hr], by simp [List.orderedInsert, hr2]⟩
  | cons c C ih =>
    by_cases hr : paramKeyLe a c
    · exact ⟨a :: c :: C, D, by simp [List.orderedInsert, hr],
        by simp [List.orderedInsert, hr]⟩
    · obtain ⟨E, F, h1, h2⟩ := ih
      exact ⟨c :: E, F, by simp [List.orderedInsert, hr, h1],
        by simp [List.orderedInsert, hr, h2]⟩

/-- The stable sort keeps lists that differ only in one value aligned: both
sort to a common frame around the differing value. -/
theorem insertionSort_congr_value (k v1 v2 : String)
    (A B : List (String × String)) :
    ∃ C D, sortParams (A ++ (k, v1) :: B) = C ++ (k, v1) :: D ∧
      sortParams (A ++ (k, v2) :: B) = C ++ (k, v2) :: D := by
  induction A with
  | nil =>
    simpa [sortParams_cons] using
      orderedInsert_congr_value k v1 v2 (sortParams B)
  | cons a A ih =>
    obtain ⟨C, D, h1, h2⟩ := ih
    obtain ⟨E, F, g1, g2⟩ := orderedInsert_frame a k v1 v2 C D
    refine ⟨E, F, ?_, ?_⟩
    · rw [List.cons_append, sortParams_cons, h1]; exact g1
    · rw [List.cons_append, sortParams_cons, h2]; exact g2

theorem joinAmp_cons (p : String × String) (rest : List (String × String)) :
    joinAmp (p :: rest)
      = p.1 ++ "=" ++ p.2 ++ (if rest.isEmpty then "" else "&" ++ joinAmp rest) :=
  rfl

theorem joinAmp_cons_of_ne (p : String × String) {rest : List (String × String)}
    (h : rest ≠ []) :
    joinAmp (p :: rest) = p.1 ++ "=" ++ p.2 ++ ("&" ++ joinAmp rest) := by
  rw [joinAmp_cons, if_neg]
  simp [h]

theorem joinAmp_cons_ne (p : String × String) (rest : List (String × String)) :
    joinAmp (p :: rest) ≠ "" := by
  intro h
  have hd := congrArg String.data h
  rw [joinAmp_cons] at hd
  simp [String.data_append] at hd

/-- Serialization separates values: if two parameter lists agree except in
one value, their query strings differ. -/
theorem joinAmp_ne_of_value_ne {C D : List (String × String)} {k v1 v2 : String}
    (h : v1 ≠ v2) : joinAmp (C ++ (k, v1) :: D) ≠ joinAmp (C ++ (k, v2) :: D) := by
  induction C with
  | nil =>
    intro he
    rw [List.nil_append, List.nil_append, joinAmp_cons, joinAmp_cons] at he
    exact h (str_append_cancel_left (str_append_cancel_right he))
  | cons c C ih =>
    intro he
    rw [List.cons_append, List.cons_append,
      joinAmp_cons_of_ne c (by simp), joinAmp_cons_of_ne c (by simp)] at he
    exact ih (str_append_cancel_left (str_append_cancel_left he))

theorem joinAmp_append_cons_ne (C D : List (String × String))
    (x : String × String) : joinAmp (C ++ x :: D) ≠ "" := by
  cases C with
  | nil => simpa using joinAmp_cons_ne x D
  | cons a t => rw [List.cons_append]; exact joinAmp_cons_ne a _

/-- C2 counterexample: the two URLs `https://x.com/p?a=2&a=1` and
`https://x.com/p?a=1&a=2` differ only in the order of their query
parameters (same path, same fragment, the parameter lists are permutations
of each other), yet their job identifiers differ: `URLSearchParams.sort` is
stable and sorts by key only, so it preserves the relative order of the two
`a` parameters instead of equating the two orders. -/
theorem extractJobIdentifier_param_order_counterexample :
    parseUrl "https://x.com/p?a=2&a=1"
      = some ⟨"/p", [("a", "2"), ("a", "1")], ""⟩ ∧
    parseUrl "https://x.com/p?a=1&a=2"
      = some ⟨"/p", [("a", "1"), ("a", "2")], ""⟩ ∧
    ([("a", "2"), ("a", "1")] : List (String × String)).Perm
      [("a", "1"), ("a", "2")] ∧
    extractJobIdentifier "https://x.com/p?a=2&a=1"
      ≠ extractJobIdentifier "https://x.com/p?a=1&a=2" :=
  ⟨by decide, by decide, by decide, by decide⟩

/-- C2 (amended): the job identifier is the path (trailing slash stripped)
plus the key-sorted query string plus the fragment; two URLs that differ
only in the order of query parameters with pairwise-distinct names yield
the same identifier; and two URLs identical except in one query
parameter's value yield distinct identifiers. -/
theorem extractJobIdentifier_spec :
    (∀ u : ParsedUrl, jobIdentOfParsed u =
      pathClean u.path ++
        (if joinAmp (sortParams u.params) = "" then ""
         else "?" ++ joinAmp (sortParams u.params)) ++ u.frag) ∧
    (∀ (path frag : String) (ps1 ps2 : List (String × String)),
      ps1.Perm ps2 → (ps1.map Prod.fst).Nodup →
      jobIdentOfParsed ⟨path, ps1, frag⟩ = jobIdentOfParsed ⟨path, ps2, frag⟩) ∧
    (∀ (path frag k v1 v2 : String) (A B : List (String × String)),
      v1 ≠ v2 →
      jobIdentOfParsed ⟨path, A ++ (k, v1) :: B, frag⟩ ≠
        jobIdentOfParsed ⟨path, A ++ (k, v2) :: B, frag⟩) ∧
    extractJobIdentifier "https://x.com/p?b=2&a=1"
      = extractJobIdentifier "https://x.com/p?a=1&b=2" := by
  refine ⟨fun u => rfl, fun path frag ps1 ps2 hp hnd => ?_,
    fun path frag k v1 v2 A B hv he => ?_, by decide⟩
  · have hsort := sortParams_eq_of_perm hp hnd
    simp only [jobIdentOfParsed, hsort]
  · obtain ⟨C, D, h1, h2⟩ := insertionSort_congr_value k v1 v2 A B
    simp only [jobIdentOfParsed] at he
    rw [h1, h2, if_neg (joinAmp_append_cons_ne C D (k, v1)),
      if_neg (joinAmp_append_cons_ne C D (k, v2))] at he
    exact joinAmp_ne_of_value_ne hv
      (str_append_cancel_left (str_append_cancel_left (str_append_cancel_right he)))

/-- Witness for C2's amended statement at concrete parameter lists: the
distinct-name permutation `b=2&a=1` vs `a=1&b=2` lands on one identifier
and a change of the value of `a` separates identifiers. -/
theorem extractJobIdentifier_spec_witness :
    jobIdentOfParsed ⟨"/p", [("b", "2"), ("a", "1")], ""⟩
      = jobIdentOfParsed ⟨"/p", [("a", "1"), ("b", "2")], ""⟩ ∧
    jobIdentOfParsed ⟨"/p", [("a", "1")], ""⟩
      ≠ jobIdentOfParsed ⟨"/p", [("a", "2")], ""⟩ :=
  ⟨extractJobIdentifier_spec.2.1 "/p" "" [("b", "2"), ("a", "1")]
      [("a", "1"), ("b", "2")] (by decide) (by decide),
   extractJobIdentifier_spec.2.2.1 "/p" "" "a" "1" "2" [] [] (by decide)⟩

end Prewrite
